import Mathlib

/-!
Verification of the layer query, symbol resolution, selection and
grid-generation engine of the data-populator Sketch plugin
(`src/sketch/src/sketch/layers.js`).

The JavaScript source is shallowly embedded below:

* JS numbers that flow through the grid code are modelled as `ℚ`
  (only comparisons, `+`, `*` occur; no rounding is performed by the code).
* Possibly-`undefined` values are modelled as `Option`.
* Layer identity is modelled by a numeric id.
* The host's `NSPredicate` format-string mechanism is embedded explicitly:
  the format rules built by `findLayersInLayer` become a list of atoms, the
  argument array becomes a list of values, and evaluation binds each `%@`
  placeholder positionally to the next argument, exactly as
  `predicateWithFormat:argumentArray:` does (extra arguments are ignored).
-/

/-- Layer class-name constants (lines 11-19 of layers.js). -/
def PAGE : String := "MSPage"

def ARTBOARD : String := "MSArtboardGroup"

def GROUP : String := "MSLayerGroup"

def TEXT : String := "MSTextLayer"

def SHAPE : String := "MSShapeGroup"

def BITMAP : String := "MSBitmapLayer"

def SYMBOL : String := "MSSymbolInstance"

def SYMBOL_MASTER : String := "MSSymbolMaster"

/-- A layer as seen by the predicate matcher: identity, optional display name
(`NULL` name = `none`), and its Objective-C class name. -/
structure MLayer where
  id : Nat
  name : Option String
  className : String
deriving DecidableEq, Repr

/-- A root layer as a supplier of candidate pools: `rootLayer.layers()` is the
immediate sublayers, `rootLayer.children()` the full descendant set, both
host-provided arrays that the predicate then filters. -/
structure MRoot where
  layers : List MLayer
  children : List MLayer
deriving Repr

/-- JS truthiness of an optional string argument: `undefined` and the empty
string are falsy. -/
def jsTruthyStr : Option String → Bool
  | none => false
  | some s => s ≠ ""

/-- A value in the `NSPredicate` argument array: either a string (the name or
class-name argument) or the array of layers to exclude (by identity). -/
inductive NSArg where
  | str (s : String)
  | arr (ids : List Nat)
deriving DecidableEq, Repr

/-- One parenthesised conjunct of the built format string. -/
inductive FormatRule where
  | nameNotNull
  | nameEq
  | nameLike
  | classEq
  | classShapeUnion
  | classDefaultUnion
  | notSelfIn
deriving DecidableEq, Repr

/-- Number of `%@` placeholders each format rule contains. -/
def placeholderCount : FormatRule → Nat
  | .nameEq => 1
  | .nameLike => 1
  | .classEq => 1
  | .notSelfIn => 1
  | _ => 0

/-- Model of the NSPredicate `like` operator: case-sensitive equality where `*` in the
pattern stands for any character sequence and `?` for exactly one character.
Structural recursion on a fuel counter keeps the function kernel-computable;
every recursive call strictly decreases `p.length + s.length`, so the initial
fuel of `likeMatch` below is never exhausted. -/
def likeMatchAux : Nat → List Char → List Char → Bool
  | 0, _, _ => false
  | _ + 1, [], [] => true
  | _ + 1, [], _ :: _ => false
  | fuel + 1, p :: ps, s =>
    if p = '*' then
      likeMatchAux fuel ps s ||
        (match s with
          | [] => false
          | _ :: tl => likeMatchAux fuel (p :: ps) tl)
    else
      match s with
      | [] => false
      | c :: tl => (p = '?' || p = c) && likeMatchAux fuel ps tl

/-- Matching `like` on strings: pattern first, subject second. -/
def likeMatch (pattern : String) (s : String) : Bool :=
  likeMatchAux (pattern.length + s.length + 1) pattern.toList s.toList

/-- The six class names accepted by the generic shape category
(line 59 of layers.js). -/
def shapeClassNames : List String :=
  ["MSRectangleShape", "MSTriangleShape", "MSOvalShape", "MSStarShape",
   "MSPolygonShape", "MSShapeGroup"]

/-- The nine class names accepted by an unqualified (type-omitted) search
(line 67 of layers.js). -/
def defaultClassNames : List String :=
  ["MSLayerGroup", "MSShapeGroup", "MSArtboardGroup", "MSTextLayer",
   "MSRectangleShape", "MSTriangleShape", "MSOvalShape", "MSStarShape",
   "MSPolygonShape"]

/-- Evaluation of `SELF IN arg`: membership when the bound argument is the exclusion array;
when placeholder misalignment binds a string there instead, a layer object is
never an element (or substring) of a string, so the test is false. -/
def selfInArg (l : MLayer) : NSArg → Bool
  | .arr ids => ids.contains l.id
  | .str _ => false

/-- Evaluate one format rule on a layer, given the argument its placeholder
was bound to (if any). -/
def evalRule (l : MLayer) : FormatRule → Option NSArg → Bool
  | .nameNotNull, _ => l.name.isSome
  | .nameEq, some (.str s) => l.name = some s
  | .nameEq, _ => false
  | .nameLike, some (.str p) =>
      match l.name with
      | some s => likeMatch p s
      | none => false
  | .nameLike, _ => false
  | .classEq, some (.str s) => l.className = s
  | .classEq, _ => false
  | .classShapeUnion, _ => shapeClassNames.contains l.className
  | .classDefaultUnion, _ => defaultClassNames.contains l.className
  | .notSelfIn, some a => !(selfInArg l a)
  | .notSelfIn, none => false

/-- Evaluate the conjunction of format rules, binding each placeholder to the
next element of the argument array positionally. -/
def evalRules (l : MLayer) : List FormatRule → List NSArg → Bool
  | [], _ => true
  | r :: rs, args =>
    if placeholderCount r = 1 then
      evalRule l r args.head? && evalRules l rs args.tail
    else
      evalRule l r none && evalRules l rs args

/-- Build the format-rule list and argument array exactly as lines 41-78 of
layers.js do.  Note that in the generic-shape branch the type string is pushed
onto the argument array even though that branch's rule has no placeholder. -/
def buildFormat (name : Option String) (exactMatch : Bool) (type : Option String)
    (layersToExclude : Option (List Nat)) : List FormatRule × List NSArg :=
  let rules : List FormatRule := [.nameNotNull]
  let args : List NSArg := []
  let (rules, args) :=
    if jsTruthyStr name then
      (rules ++ [if exactMatch then FormatRule.nameEq else FormatRule.nameLike],
       args ++ [NSArg.str (name.getD "")])
    else (rules, args)
  let (rules, args) :=
    if jsTruthyStr type then
      (rules ++ [if type = some SHAPE then FormatRule.classShapeUnion else FormatRule.classEq],
       args ++ [NSArg.str (type.getD "")])
    else (rules ++ [FormatRule.classDefaultUnion], args)
  let (rules, args) :=
    match layersToExclude with
    | some ls => (rules ++ [FormatRule.notSelfIn], args ++ [NSArg.arr ls])
    | none => (rules, args)
  (rules, args)

/-- Embedding of `findLayersInLayer` (lines 33-96): build the predicate, pick the candidate
pool, filter. -/
def findLayersInLayer (name : Option String) (exactMatch : Bool) (type : Option String)
    (rootLayer : MRoot) (subLayersOnly : Bool)
    (layersToExclude : Option (List Nat)) : List MLayer :=
  let fa := buildFormat name exactMatch type layersToExclude
  let pool := if subLayersOnly then rootLayer.layers else rootLayer.children
  pool.filter (fun l => evalRules l fa.1 fa.2)

/-- Embedding of `findLayerInLayer` (lines 109-121): first element of the plural result. -/
def findLayerInLayer (name : Option String) (exactMatch : Bool) (type : Option String)
    (rootLayer : MRoot) (subLayersOnly : Bool)
    (layersToExclude : Option (List Nat)) : Option MLayer :=
  (findLayersInLayer name exactMatch type rootLayer subLayersOnly layersToExclude).head?

/-- Spec-side notion used by the substring claim: `n` occurs in `s` as a
case-sensitive contiguous substring. -/
def containsSubstring (s n : String) : Bool :=
  (List.range (s.length + 1)).any (fun i => (s.toList.drop i).take n.length = n.toList)

/-! ## Symbol resolver (lines 223-285 of layers.js) -/

/-- A symbol master cached in the active document (`getSymbols()` element). -/
structure SMSymbol where
  name : String
  id : String
deriving DecidableEq, Repr

/-- An importable symbol reference exposed by a library. -/
structure LibRef where
  name : String
  id : String
deriving DecidableEq, Repr

/-- A registered library: validity flag and its importable references. -/
structure Library where
  valid : Bool
  refs : List LibRef
deriving DecidableEq, Repr

/-- A resolved symbol master; `srcLib = none` means it came from the active
document's own symbol list, `some i` that it was imported from library `i`. -/
structure Master where
  name : String
  id : String
  srcLib : Option Nat
deriving DecidableEq, Repr

/-- Import of a reference, `reference.import()`: materializes the master for a library reference. -/
def importRef (libIdx : Nat) (r : LibRef) : Master :=
  ⟨r.name, r.id, some libIdx⟩

/-- The library `for` loop shared by both resolver entry points, with an
explicit trace of the imports it performs.  Faithful to lines 232-246 /
267-281: `if (!library.valid) return` exits the whole function (returning
`undefined` and discarding any master already imported into `acc`), and a
matching reference overwrites `acc` without breaking out of the loop. -/
def libSearch (isMatch : LibRef → Bool) :
    List Library → Nat → Option Master → List (Nat × LibRef) →
    Option Master × List (Nat × LibRef)
  | [], _, acc, tr => (acc, tr)
  | lib :: rest, i, acc, tr =>
    if !lib.valid then (none, tr)
    else
      match (lib.refs.filter isMatch).head? with
      | some r => libSearch isMatch rest (i + 1) (some (importRef i r)) (tr ++ [(i, r)])
      | none => libSearch isMatch rest (i + 1) acc tr

/-- Embedding of `findSymbolMasterWithName` (lines 223-250), returning the result together
with the list of library imports performed (library index, reference). -/
def findSymbolMasterWithName (docSymbols : List SMSymbol) (libs : List Library)
    (name : String) : Option Master × List (Nat × LibRef) :=
  match (docSymbols.filter (fun s => s.name = name)).head? with
  | some s => (some ⟨s.name, s.id, none⟩, [])
  | none => libSearch (fun r => r.name = name) libs 0 none []

/-- Embedding of `findSymbolMasterWithId` (lines 258-285), same shape filtered by id. -/
def findSymbolMasterWithId (docSymbols : List SMSymbol) (libs : List Library)
    (id : String) : Option Master × List (Nat × LibRef) :=
  match (docSymbols.filter (fun s => s.id = id)).head? with
  | some s => (some ⟨s.name, s.id, none⟩, [])
  | none => libSearch (fun r => r.id = id) libs 0 none []

/-- The libraries (with their indices) whose reference list contains a match,
paired with the first matching reference of each — the imports the loop
performs when it is not cut short by an invalid library. -/
def matchingImports (isMatch : LibRef → Bool) (libs : List Library) (start : Nat) :
    List (Nat × LibRef) :=
  match libs with
  | [] => []
  | lib :: rest =>
    match (lib.refs.filter isMatch).head? with
    | some r => (start, r) :: matchingImports isMatch rest (start + 1)
    | none => matchingImports isMatch rest (start + 1)

/-! ## Selection manager (lines 306-326 of layers.js)

The host's native selection is modelled as the list of selected layer ids in
native order.  `select_byExtendingSelection(false, …)` removes a layer from
the native selection; `select_byExtendingSelection(true, true)` extends the
native selection with the layer. -/

/-- Host primitive: deselect one layer. -/
def deselectOne (native : List Nat) (l : Nat) : List Nat :=
  native.filter (fun a => a ≠ l)

/-- Host primitive: select one layer, extending the current selection. -/
def selectExtend (native : List Nat) (l : Nat) : List Nat :=
  native ++ [l]

/-- Embedding of `getSelectedLayers` (lines 306-308): the native selection, reversed. -/
def getSelectedLayers (native : List Nat) : List Nat :=
  native.reverse

/-- Embedding of `selectLayers` (lines 315-326): deselect every currently selected layer,
then select each provided layer in sequence order. -/
def selectLayers (native : List Nat) (layers : List Nat) : List Nat :=
  let afterDeselect := (getSelectedLayers native).foldl deselectOne native
  layers.foldl selectExtend afterDeselect

/-! ## Grid generator (`createGrid`, lines 475-558 of layers.js) -/

/-- A layer frame: position and size, in the parent's coordinate space. -/
structure Frame where
  x : ℚ
  y : ℚ
  width : ℚ
  height : ℚ
deriving DecidableEq, Repr

/-- A layer as seen by the grid generator: identity, frame, and the host
parent lookups `parentGroup()`, `parentArtboard()`, `parentPage()` (each an
optional parent layer id). -/
structure GLayer where
  id : Nat
  frame : Frame
  parentGroup : Option Nat
  parentArtboard : Option Nat
  parentPage : Option Nat
deriving DecidableEq, Repr

/-- The document's layer tree, flattened: the set of live layer records and a
supply of fresh ids for duplicates. -/
structure GDoc where
  layers : List GLayer
  nextId : Nat
deriving DecidableEq, Repr

/-- The `opt` grid specification; `none` models an absent/undefined field. -/
structure GridOpt where
  rowsCount : Option ℚ
  rowsMargin : Option ℚ
  columnsCount : Option ℚ
  columnsMargin : Option ℚ
deriving DecidableEq, Repr

/-- Everything observable about a `createGrid` call: the final document, the
returned array (`none` = `undefined` return), the messages shown via
`document.showMessage`, and whether the call would have thrown (calling a
method on `undefined`/`null`). -/
structure GridOutcome where
  doc : GDoc
  result : Option (List GLayer)
  messages : List String
  crashed : Bool
deriving DecidableEq, Repr

/-- JS falsiness of an optional number: `undefined`, `0` (and `NaN`, not
modelled) are falsy. -/
def jsFalsyQ : Option ℚ → Bool
  | none => true
  | some q => q = 0

/-- JS `x < 0` on an optional number: `undefined < 0` is false. -/
def jsLtZero : Option ℚ → Bool
  | none => false
  | some q => q < 0

/-- JS `x !== 0` on an optional number. -/
def jsStrictNeZero : Option ℚ → Bool
  | none => true
  | some q => q ≠ 0

/-- The margin validation `!m && m !== 0` (lines 483, 495): rejects exactly
the absent margin. -/
def marginInvalid (m : Option ℚ) : Bool :=
  jsFalsyQ m && jsStrictNeZero m

/-- The count validation `!c || c < 0` (lines 477, 489): rejects an absent,
zero or negative count. -/
def countInvalid (c : Option ℚ) : Bool :=
  jsFalsyQ c || jsLtZero c

/-- One step of the anchor scan (lines 504-511): the candidate replaces the
current best exactly when its x is smaller than the smallest x seen OR its y
is smaller than the smallest y seen; on replacement both bests become the
candidate's coordinates. -/
def anchorStep : GLayer × ℚ × ℚ → GLayer → GLayer × ℚ × ℚ
  | (best, sx, sy), t =>
    if t.frame.x < sx || t.frame.y < sy then (t, t.frame.x, t.frame.y) else (best, sx, sy)

/-- The full anchor scan: starts from `selectedLayers[0]` and folds
`anchorStep` over the whole selection (index 0 included, a no-op there). -/
def anchorScan (first : GLayer) (all : List GLayer) : GLayer :=
  (all.foldl anchorStep (first, first.frame.x, first.frame.y)).1

/-- Parent capture (lines 516-518): parent group, else parent artboard, else
parent page. -/
def capturedParent (l : GLayer) : Option Nat :=
  (l.parentGroup.orElse fun _ => (l.parentArtboard.orElse fun _ => l.parentPage))

/-- Number of iterations of `for (let i = 0; i < q; i++)` for a JS number
bound `q`: the loop body runs for exactly the naturals `i` with `(i : ℚ) < q`,
which by `Nat.lt_ceil` are `i < ⌈q⌉₊`. -/
def loopIterations (q : ℚ) : Nat :=
  ⌈q⌉₊

/-- One grid copy (loop body, lines 538-554): duplicate of the anchor, added
to the captured parent, positioned at column `j` of row `i`. -/
def gridCopy (anchor : GLayer) (parent : Nat) (startX startY rm cm : ℚ)
    (cCols : Nat) (base : Nat) (i j : Nat) : GLayer :=
  { id := base + i * cCols + j
    frame :=
      { x := startX + (j : ℚ) * (anchor.frame.width + cm)
        y := startY + (i : ℚ) * (anchor.frame.height + rm)
        width := anchor.frame.width
        height := anchor.frame.height }
    parentGroup := some parent
    parentArtboard := anchor.parentArtboard
    parentPage := anchor.parentPage }

/-- The nested row/column loops (lines 533-555) as a list of copies in
creation (row-major) order. -/
def gridCopies (anchor : GLayer) (parent : Nat) (startX startY rm cm : ℚ)
    (rRows cCols : Nat) (base : Nat) : List GLayer :=
  (List.range rRows).flatMap fun i =>
    (List.range cCols).map fun j => gridCopy anchor parent startX startY rm cm cCols base i j

/-- Embedding of `createGrid` (lines 475-558).  Validation first (each failure shows one
message and returns `undefined` without touching the document); then anchor
scan, parent capture, removal of every selected layer, and creation of the
row-major grid of copies of the anchor. -/
def createGrid (doc : GDoc) (selectedLayers : List GLayer) (opt : GridOpt) : GridOutcome :=
  if countInvalid opt.rowsCount then
    ⟨doc, none, ["Number of grid rows must be at least 1."], false⟩
  else if marginInvalid opt.rowsMargin then
    ⟨doc, none, ["Grid row margin is invalid."], false⟩
  else if countInvalid opt.columnsCount then
    ⟨doc, none, ["Number of grid columns must be at least 1."], false⟩
  else if marginInvalid opt.columnsMargin then
    ⟨doc, none, ["Grid column margin is invalid."], false⟩
  else
    match selectedLayers with
    | [] => ⟨doc, none, [], true⟩
    | first :: rest =>
      let layer := anchorScan first (first :: rest)
      let selIds := (first :: rest).map (fun l => l.id)
      let removed := doc.layers.filter (fun l => !(selIds.contains l.id))
      match capturedParent layer with
      | none => ⟨{ doc with layers := removed }, none, [], true⟩
      | some parent =>
        let rRows := loopIterations (opt.rowsCount.getD 0)
        let cCols := loopIterations (opt.columnsCount.getD 0)
        let rm := opt.rowsMargin.getD 0
        let cm := opt.columnsMargin.getD 0
        let newLayers :=
          gridCopies layer parent layer.frame.x layer.frame.y rm cm rRows cCols doc.nextId
        ⟨{ layers := removed ++ newLayers, nextId := doc.nextId + rRows * cCols },
         some newLayers, [], false⟩

/-! ## Helper lemmas -/

theorem marginInvalid_some (q : ℚ) : marginInvalid (some q) = false := by
  by_cases h : q = 0 <;> simp [marginInvalid, jsFalsyQ, jsStrictNeZero, h]

theorem marginInvalid_none : marginInvalid none = true := rfl

theorem countInvalid_pos (q : ℚ) (h : 0 < q) : countInvalid (some q) = false := by
  simp [countInvalid, jsFalsyQ, jsLtZero]
  exact ⟨h.ne', h.le⟩

theorem countInvalid_nonpos (q : ℚ) (h : q ≤ 0) : countInvalid (some q) = true := by
  rcases lt_or_eq_of_le h with h0 | h0
  · simp [countInvalid, jsFalsyQ, jsLtZero, h0]
  · simp [countInvalid, jsFalsyQ, jsLtZero, h0.symm]

theorem loopIterations_natCast (n : Nat) : loopIterations (n : ℚ) = n := by
  simp [loopIterations]

theorem loopIterations_fractional (q : ℚ) (h0 : 0 < q) (h1 : q < 1) :
    loopIterations q = 1 := by
  refine le_antisymm ?_ ?_
  · exact Nat.ceil_le.2 h1.le
  · exact Nat.ceil_pos.2 h0

theorem length_range_bind {α : Type} (f : Nat → Nat → α) (r c : Nat) :
    ((List.range r).flatMap fun i => (List.range c).map (f i)).length = r * c := by
  induction r with
  | zero => simp
  | succ n ih => simp [List.range_succ, ih, Nat.succ_mul]

theorem get_range_bind {α : Type} (f : Nat → Nat → α) (r c i j : Nat)
    (hi : i < r) (hj : j < c) :
    ((List.range r).flatMap fun k => (List.range c).map (f k)).get? (i * c + j) =
      some (f i j) := by
  induction r with
  | zero => omega
  | succ n ih =>
    rw [List.range_succ, List.flatMap_append]
    rcases Nat.lt_succ_iff_lt_or_eq.1 hi with h | h
    · rw [List.get?_append]
      · exact ih h
      · rw [length_range_bind]
        calc i * c + j < i * c + c := Nat.add_lt_add_left hj _
          _ = (i + 1) * c := (Nat.succ_mul i c).symm
          _ ≤ n * c := Nat.mul_le_mul_right c h
    · subst h
      rw [List.get?_append_right]
      · rw [length_range_bind, Nat.add_sub_cancel_left]
        simp [List.getElem?_map, List.getElem?_range hj]
      · rw [length_range_bind]
        exact Nat.le_add_right _ _

theorem mem_range_bind {α : Type} (f : Nat → Nat → α) (r c : Nat) (x : α) :
    x ∈ ((List.range r).flatMap fun i => (List.range c).map (f i)) ↔
      ∃ i j, i < r ∧ j < c ∧ x = f i j := by
  simp only [List.mem_flatMap, List.mem_map, List.mem_range]
  constructor
  · rintro ⟨i, hi, j, hj, rfl⟩
    exact ⟨i, j, hi, hj, rfl⟩
  · rintro ⟨i, j, hi, hj, rfl⟩
    exact ⟨i, hi, j, hj, rfl⟩

theorem gridCopies_length (anchor : GLayer) (parent : Nat) (sx sy rm cm : ℚ)
    (r c base : Nat) :
    (gridCopies anchor parent sx sy rm cm r c base).length = r * c :=
  length_range_bind _ r c

theorem gridCopies_get (anchor : GLayer) (parent : Nat) (sx sy rm cm : ℚ)
    (r c base i j : Nat) (hi : i < r) (hj : j < c) :
    (gridCopies anchor parent sx sy rm cm r c base).get? (i * c + j) =
      some (gridCopy anchor parent sx sy rm cm c base i j) :=
  get_range_bind _ r c i j hi hj

theorem gridCopies_mem (anchor : GLayer) (parent : Nat) (sx sy rm cm : ℚ)
    (r c base : Nat) (x : GLayer) :
    x ∈ gridCopies anchor parent sx sy rm cm r c base ↔
      ∃ i j, i < r ∧ j < c ∧ x = gridCopy anchor parent sx sy rm cm c base i j :=
  mem_range_bind _ r c x

theorem foldl_selectExtend (xs acc : List Nat) :
    xs.foldl selectExtend acc = acc ++ xs := by
  induction xs generalizing acc with
  | nil => simp
  | cons x xs ih => simp [selectExtend, ih]

theorem foldl_deselectOne_covering (xs : List Nat) :
    ∀ acc : List Nat, (∀ a ∈ acc, a ∈ xs) → xs.foldl deselectOne acc = [] := by
  induction xs with
  | nil =>
    intro acc h
    have hacc : acc = [] :=
      List.eq_nil_iff_forall_not_mem.2 fun a ha => by simpa using h a ha
    simp [hacc]
  | cons x xs ih =>
    intro acc h
    rw [List.foldl_cons]
    refine ih (deselectOne acc x) ?_
    intro a ha
    rw [deselectOne, List.mem_filter] at ha
    have hx : a ≠ x := by simpa using ha.2
    rcases h a ha.1 with h1
    rcases List.mem_cons.1 h1 with h2 | h2
    · exact absurd h2 hx
    · exact h2

theorem deselect_all (native : List Nat) :
    (getSelectedLayers native).foldl deselectOne native = [] :=
  foldl_deselectOne_covering _ native fun a ha => List.mem_reverse.2 ha

def lastImportOr (trace : List (Nat × LibRef)) (dflt : Option Master) : Option Master :=
  match trace.getLast? with
  | some kr => some (importRef kr.1 kr.2)
  | none => dflt

theorem foldl_last_import (trace : List (Nat × LibRef)) :
    ∀ acc : Option Master,
      trace.foldl (fun _ kr => some (importRef kr.1 kr.2)) acc = lastImportOr trace acc := by
  induction trace with
  | nil => intro acc; rfl
  | cons x xs ih =>
    intro acc
    rw [List.foldl_cons, ih]
    cases xs with
    | nil => rfl
    | cons y ys =>
      cases hz : (y :: ys).getLast? with
      | none => exact absurd hz (by simp)
      | some z => simp [lastImportOr, List.getLast?_cons_cons, hz]

theorem libSearch_all_valid (isMatch : LibRef → Bool) (libs : List Library) :
    ∀ (i : Nat) (acc : Option Master) (tr : List (Nat × LibRef)),
      (∀ lib ∈ libs, lib.valid = true) →
      libSearch isMatch libs i acc tr =
        ((matchingImports isMatch libs i).foldl (fun _ kr => some (importRef kr.1 kr.2)) acc,
         tr ++ matchingImports isMatch libs i) := by
  induction libs with
  | nil => intro i acc tr _; simp [libSearch, matchingImports]
  | cons lib rest ih =>
    intro i acc tr h
    have hv : lib.valid = true := h lib (List.mem_cons_self _ _)
    have hrest : ∀ l ∈ rest, l.valid = true := fun l hl => h l (List.mem_cons_of_mem _ hl)
    cases hhead : (lib.refs.filter isMatch).head? with
    | some r =>
      simp only [libSearch, hv, Bool.not_true, Bool.false_eq_true, if_false, hhead,
        matchingImports, List.foldl_cons]
      rw [ih _ _ _ hrest, List.append_assoc]
      rfl
    | none =>
      simp only [libSearch, hv, Bool.not_true, Bool.false_eq_true, if_false, hhead,
        matchingImports]
      exact ih _ _ _ hrest

/-! ## Claim theorems -/

/-- C7: `getSelectedLayers` always returns the host's native selection order
reversed, and for every selection state, reading the selection and then
setting it to that sequence reversed restores the original native order;
`selectLayers` is not additive: it deselects every currently selected layer
before selecting each provided layer in sequence order, so the resulting
native selection is exactly the provided sequence. -/
theorem selection_inversion_roundtrip :
    (∀ native : List Nat, getSelectedLayers native = native.reverse)
    ∧ (∀ native layers : List Nat, selectLayers native layers = layers)
    ∧ (∀ native : List Nat,
        selectLayers native ((getSelectedLayers native).reverse) = native) := by
  have hrepl : ∀ native layers : List Nat, selectLayers native layers = layers := by
    intro native layers
    rw [selectLayers, deselect_all, foldl_selectExtend, List.nil_append]
  refine ⟨fun _ => rfl, hrepl, fun native => ?_⟩
  rw [hrepl, getSelectedLayers, List.reverse_reverse]

/-- Library registry with an invalid library before a valid one whose single
reference matches by name `S` and id `s1`. -/
def libsInvalidFirst : List Library := [⟨false, []⟩, ⟨true, [⟨"S", "s1"⟩]⟩]

/-- C3: at `libsInvalidFirst` (an invalid library preceding a valid matching
one, no local master) both resolver entry points hit `if (!library.valid)
return` and abort with `undefined`, importing nothing — instead of skipping
the invalid library and importing from the valid one as the spec requires. -/
theorem resolver_invalid_library_aborts :
    findSymbolMasterWithName [] libsInvalidFirst "S" = (none, [])
    ∧ findSymbolMasterWithId [] libsInvalidFirst "s1" = (none, []) := by
  decide

/-- First library's matching reference for the C2 counterexample. -/
def refA : LibRef := ⟨"S", "a"⟩

/-- Second library's matching reference for the C2 counterexample. -/
def refB : LibRef := ⟨"S", "b"⟩

/-- Two valid libraries, both containing a reference named `S`. -/
def libsTwoMatches : List Library := [⟨true, [refA]⟩, ⟨true, [refB]⟩]

/-- C2 counterexample: with no local master and two valid matching libraries,
the by-name resolver imports from BOTH libraries (the loop has no early exit)
and returns the master imported from the SECOND library, not the first —
refuting "stops at the first valid library whose importable references
contain a match … and does not consult or import from any later library". -/
theorem resolver_later_library_imported :
    findSymbolMasterWithName [] libsTwoMatches "S" =
      (some (importRef 1 refB), [(0, refA), (1, refB)])
    ∧ importRef 1 refB ≠ importRef 0 refA := by
  decide

/-- C2 amended: when the document has no locally matching master and every
registered library is valid, both resolver entry points consult EVERY
library in registration order, import the first matching reference of each
library that has one, and return the master imported from the LAST matching
library (none if no library matches). -/
theorem resolver_consults_all_valid_libraries (docSymbols : List SMSymbol)
    (libs : List Library) (nm idv : String)
    (hn : docSymbols.filter (fun s => s.name = nm) = [])
    (hi : docSymbols.filter (fun s => s.id = idv) = [])
    (hvalid : ∀ lib ∈ libs, lib.valid = true) :
    findSymbolMasterWithName docSymbols libs nm =
      (lastImportOr (matchingImports (fun r => r.name = nm) libs 0) none,
       matchingImports (fun r => r.name = nm) libs 0)
    ∧ findSymbolMasterWithId docSymbols libs idv =
      (lastImportOr (matchingImports (fun r => r.id = idv) libs 0) none,
       matchingImports (fun r => r.id = idv) libs 0) := by
  constructor
  · rw [findSymbolMasterWithName, hn]
    rw [libSearch_all_valid _ _ _ _ _ hvalid, foldl_last_import, List.nil_append]
    rfl
  · rw [findSymbolMasterWithId, hi]
    rw [libSearch_all_valid _ _ _ _ _ hvalid, foldl_last_import, List.nil_append]
    rfl

/-- Witness for the C2 amended theorem: concrete two-library registry where
the last matching import is returned and both imports are traced. -/
theorem resolver_consults_all_valid_libraries_witness :
    findSymbolMasterWithName [] libsTwoMatches "S" =
      (lastImportOr (matchingImports (fun r => r.name = "S") libsTwoMatches 0) none,
       matchingImports (fun r => r.name = "S") libsTwoMatches 0) := by
  exact (resolver_consults_all_valid_libraries [] libsTwoMatches "S" "x" rfl rfl
    (by decide)).1

/-- A rectangle shape layer, named, with id 1 — used to exhibit the
shape-category exclusion fault. -/
def rectLayer : MLayer := ⟨1, some "a", "MSRectangleShape"⟩

/-- C4: with the generic shape category and a non-empty exclusion set
containing the candidate itself, `args.push(type)` (line 64 of layers.js)
runs even though the shape branch's format has no `%@`, so `NOT (SELF IN %@)`
binds the type string instead of the exclusion array and the excluded layer
IS returned.  With the kind omitted, or a concrete class kind, the arguments
stay aligned and the same excluded layer is removed. -/
theorem exclusion_misbound_for_shape_kind :
    findLayersInLayer none false (some SHAPE) ⟨[], [rectLayer]⟩ false (some [1]) =
      [rectLayer]
    ∧ findLayersInLayer none false none ⟨[], [rectLayer]⟩ false (some [1]) = []
    ∧ findLayersInLayer none false (some "MSRectangleShape") ⟨[], [rectLayer]⟩ false
        (some [1]) = [] := by
  decide

/-- A group layer named "ab", inside a root, for the C8 counterexample. -/
def layerAB : MLayer := ⟨1, some "ab", "MSLayerGroup"⟩

/-- Root whose full descendant pool is just `layerAB`. -/
def rootAB : MRoot := ⟨[], [layerAB]⟩

/-- C8 counterexample: the layer named "ab" contains "a" as a case-sensitive
substring, yet `findLayers(name="a", exactMatch=false)` does not return it:
the non-exact name filter is NSPredicate `like` (wildcard-pattern equality),
not substring containment. -/
theorem name_substring_claim_fails :
    containsSubstring "ab" "a" = true
    ∧ findLayersInLayer (some "a") false none rootAB false none = [] := by
  decide

theorem buildFormat_name_noType (n : String) (hN : n ≠ "") (em : Bool) :
    buildFormat (some n) em none none =
      ([FormatRule.nameNotNull,
        if em then FormatRule.nameEq else FormatRule.nameLike,
        FormatRule.classDefaultUnion],
       [NSArg.str n]) := by
  simp [buildFormat, jsTruthyStr, hN]

theorem evalRules_name_noType (l : MLayer) (n : String) (em : Bool) :
    evalRules l
      [FormatRule.nameNotNull,
        if em then FormatRule.nameEq else FormatRule.nameLike,
        FormatRule.classDefaultUnion]
      [NSArg.str n] =
      (l.name.isSome
        && evalRule l (if em then FormatRule.nameEq else FormatRule.nameLike)
            (some (NSArg.str n))
        && defaultClassNames.contains l.className) := by
  cases em <;> simp [evalRules, evalRule, placeholderCount, Bool.and_assoc]

/-- C8 amended: for a non-empty name `n`, `findLayers` with `exactMatch=true`
returns only layers whose name equals `n` exactly; with `exactMatch=false` it
returns exactly the pool layers whose name matches `n` under NSPredicate
`like` wildcard semantics (case-sensitive; without wildcard characters this
is plain equality, not substring containment) and whose class is in the
unqualified-kind union. -/
theorem find_layers_name_semantics (n : String) (hN : n ≠ "") (root : MRoot)
    (sub : Bool) (l : MLayer) :
    (l ∈ findLayersInLayer (some n) true none root sub none → l.name = some n)
    ∧ (l ∈ findLayersInLayer (some n) false none root sub none ↔
        l ∈ (if sub then root.layers else root.children)
          ∧ ∃ s, l.name = some s ∧ likeMatch n s = true
            ∧ defaultClassNames.contains l.className = true) := by
  have hlik : evalRule l FormatRule.nameLike (some (NSArg.str n)) =
      (match l.name with
        | some s => likeMatch n s
        | none => false) := rfl
  have hbfT : buildFormat (some n) true none none =
      ([FormatRule.nameNotNull, FormatRule.nameEq, FormatRule.classDefaultUnion],
       [NSArg.str n]) := by simpa using buildFormat_name_noType n hN true
  have hbfF : buildFormat (some n) false none none =
      ([FormatRule.nameNotNull, FormatRule.nameLike, FormatRule.classDefaultUnion],
       [NSArg.str n]) := by simpa using buildFormat_name_noType n hN false
  have hevT : evalRules l
      [FormatRule.nameNotNull, FormatRule.nameEq, FormatRule.classDefaultUnion]
      [NSArg.str n] =
      (l.name.isSome && evalRule l FormatRule.nameEq (some (NSArg.str n))
        && defaultClassNames.contains l.className) := by
    simpa using evalRules_name_noType l n true
  have hevF : evalRules l
      [FormatRule.nameNotNull, FormatRule.nameLike, FormatRule.classDefaultUnion]
      [NSArg.str n] =
      (l.name.isSome && evalRule l FormatRule.nameLike (some (NSArg.str n))
        && defaultClassNames.contains l.className) := by
    simpa using evalRules_name_noType l n false
  constructor
  · intro hl
    simp only [findLayersInLayer, hbfT, List.mem_filter, hevT, Bool.and_eq_true] at hl
    have hdec : evalRule l FormatRule.nameEq (some (NSArg.str n)) = true := hl.2.1.2
    rw [show evalRule l FormatRule.nameEq (some (NSArg.str n)) =
        decide (l.name = some n) from rfl] at hdec
    exact of_decide_eq_true hdec
  · simp only [findLayersInLayer, hbfF, List.mem_filter, hevF, Bool.and_eq_true]
    constructor
    · rintro ⟨hpool, ⟨⟨hsome, hcond⟩, hclass⟩⟩
      refine ⟨hpool, ?_⟩
      cases hname : l.name with
      | none =>
        rw [hlik, hname] at hcond
        simp at hcond
      | some s =>
        rw [hlik, hname] at hcond
        exact ⟨s, rfl, hcond, hclass⟩
    · rintro ⟨hpool, s, hname, hlike2, hclass⟩
      exact ⟨hpool, ⟨⟨by simp [hname], by rw [hlik, hname]; exact hlike2⟩, hclass⟩⟩

/-- A group layer named "a", matching the like pattern "a" exactly. -/
def layerA : MLayer := ⟨2, some "a", "MSLayerGroup"⟩

/-- Root whose full descendant pool is just `layerA`. -/
def rootA : MRoot := ⟨[], [layerA]⟩

/-- Witness for the C8 amended theorem at a concrete matching layer. -/
theorem find_layers_name_semantics_witness :
    layerA ∈ findLayersInLayer (some "a") false none rootA false none :=
  (find_layers_name_semantics "a" (by decide) rootA false layerA).2.mpr
    ⟨by decide, "a", rfl, by decide, by decide⟩

theorem createGrid_messages_valid (doc : GDoc) (sel : List GLayer) (opt : GridOpt)
    (r c : ℚ) (hr : opt.rowsCount = some r) (hr0 : 0 < r)
    (hc : opt.columnsCount = some c) (hc0 : 0 < c)
    (hrm : opt.rowsMargin ≠ none) (hcm : opt.columnsMargin ≠ none) :
    (createGrid doc sel opt).messages = [] := by
  obtain ⟨rm, hrm⟩ := Option.ne_none_iff_exists'.1 hrm
  obtain ⟨cm, hcm⟩ := Option.ne_none_iff_exists'.1 hcm
  have h1 : countInvalid opt.rowsCount = false := by rw [hr]; exact countInvalid_pos r hr0
  have h2 : marginInvalid opt.rowsMargin = false := by rw [hrm]; exact marginInvalid_some rm
  have h3 : countInvalid opt.columnsCount = false := by rw [hc]; exact countInvalid_pos c hc0
  have h4 : marginInvalid opt.columnsMargin = false := by rw [hcm]; exact marginInvalid_some cm
  simp only [createGrid, h1, h2, h3, h4, Bool.false_eq_true, if_false]
  cases sel with
  | nil => rfl
  | cons first rest =>
    cases hp : capturedParent (anchorScan first (first :: rest)) <;> simp [hp]

theorem createGrid_valid_eq (doc : GDoc) (first : GLayer) (rest : List GLayer)
    (opt : GridOpt) (r c rm cm : ℚ) (p : Nat)
    (hr : opt.rowsCount = some r) (hr0 : 0 < r)
    (hc : opt.columnsCount = some c) (hc0 : 0 < c)
    (hrm : opt.rowsMargin = some rm) (hcm : opt.columnsMargin = some cm)
    (hpar : capturedParent (anchorScan first (first :: rest)) = some p) :
    createGrid doc (first :: rest) opt =
      ⟨⟨doc.layers.filter
          (fun l => !(((first :: rest).map (fun s => s.id)).contains l.id))
          ++ gridCopies (anchorScan first (first :: rest)) p
              (anchorScan first (first :: rest)).frame.x
              (anchorScan first (first :: rest)).frame.y rm cm
              (loopIterations r) (loopIterations c) doc.nextId,
        doc.nextId + loopIterations r * loopIterations c⟩,
       some (gridCopies (anchorScan first (first :: rest)) p
              (anchorScan first (first :: rest)).frame.x
              (anchorScan first (first :: rest)).frame.y rm cm
              (loopIterations r) (loopIterations c) doc.nextId),
       [], false⟩ := by
  have h1 : countInvalid (some r) = false := countInvalid_pos r hr0
  have h2 : marginInvalid (some rm) = false := marginInvalid_some rm
  have h3 : countInvalid (some c) = false := countInvalid_pos c hc0
  have h4 : marginInvalid (some cm) = false := marginInvalid_some cm
  simp only [createGrid, hr, hc, hrm, hcm, h1, h2, h3, h4, Bool.false_eq_true, if_false,
    hpar, Option.getD_some]

/-- C5: `createGrid` rejects a specification whose rows count is absent, zero
or negative, whose columns count is absent, zero or negative, or whose row or
column margin is absent — showing one user-facing message and returning
`undefined` with the document untouched — and accepts a margin of exactly 0
(no validation message is shown). -/
theorem grid_validation (doc : GDoc) (sel : List GLayer) (opt : GridOpt) :
    ((opt.rowsCount = none ∨ (∃ r, opt.rowsCount = some r ∧ r ≤ 0)
        ∨ opt.columnsCount = none ∨ (∃ c, opt.columnsCount = some c ∧ c ≤ 0)
        ∨ opt.rowsMargin = none ∨ opt.columnsMargin = none) →
      ∃ msg, createGrid doc sel opt = ⟨doc, none, [msg], false⟩)
    ∧ (∀ r c : ℚ, opt.rowsCount = some r → 0 < r → opt.columnsCount = some c → 0 < c →
        opt.rowsMargin = some 0 → opt.columnsMargin = some 0 →
        (createGrid doc sel opt).messages = []) := by
  constructor
  · intro hbad
    by_cases h1 : countInvalid opt.rowsCount = true
    · exact ⟨"Number of grid rows must be at least 1.", by simp [createGrid, h1]⟩
    · rw [Bool.not_eq_true] at h1
      by_cases h2 : marginInvalid opt.rowsMargin = true
      · exact ⟨"Grid row margin is invalid.", by simp [createGrid, h1, h2]⟩
      · rw [Bool.not_eq_true] at h2
        by_cases h3 : countInvalid opt.columnsCount = true
        · exact ⟨"Number of grid columns must be at least 1.", by simp [createGrid, h1, h2, h3]⟩
        · rw [Bool.not_eq_true] at h3
          by_cases h4 : marginInvalid opt.columnsMargin = true
          · exact ⟨"Grid column margin is invalid.", by simp [createGrid, h1, h2, h3, h4]⟩
          · rw [Bool.not_eq_true] at h4
            exfalso
            rcases hbad with h | ⟨r, hr, hr0⟩ | h | ⟨c, hc, hc0⟩ | h | h
            · rw [h] at h1; exact absurd h1 (by decide)
            · rw [hr, countInvalid_nonpos r hr0] at h1; exact Bool.noConfusion h1
            · rw [h] at h3; exact absurd h3 (by decide)
            · rw [hc, countInvalid_nonpos c hc0] at h3; exact Bool.noConfusion h3
            · rw [h] at h2; exact absurd h2 (by decide)
            · rw [h] at h4; exact absurd h4 (by decide)
  · intro r c hr hr0 hc hc0 hrm hcm
    exact createGrid_messages_valid doc sel opt r c hr hr0 hc hc0
      (by rw [hrm]; exact Option.some_ne_none 0) (by rw [hcm]; exact Option.some_ne_none 0)

/-- A single selected layer at the origin whose only resolvable parent is a
page with id 9. -/
def gl0 : GLayer := ⟨0, ⟨0, 0, 20, 10⟩, none, none, some 9⟩

/-- A one-layer document with fresh ids starting at 1. -/
def doc0 : GDoc := ⟨[gl0], 1⟩

/-- A grid spec with the rows count absent. -/
def optMissingRows : GridOpt := ⟨none, some 0, some 1, some 0⟩

/-- A valid grid spec with both margins exactly 0. -/
def optZeroMargins : GridOpt := ⟨some 1, some 0, some 1, some 0⟩

/-- Witness for the C5 validation theorem: the absent rows count is rejected
without mutating the document, and zero margins pass validation. -/
theorem grid_validation_witness :
    (createGrid doc0 [gl0] optMissingRows).result = none
    ∧ (createGrid doc0 [gl0] optMissingRows).doc = doc0
    ∧ (createGrid doc0 [gl0] optZeroMargins).messages = [] := by
  obtain ⟨msg, hmsg⟩ := (grid_validation doc0 [gl0] optMissingRows).1 (Or.inl rfl)
  have h2 := (grid_validation doc0 [gl0] optZeroMargins).2 1 1 rfl (by norm_num) rfl
    (by norm_num) rfl rfl
  rw [hmsg]
  exact ⟨rfl, rfl, h2⟩

/-- A grid spec with a negative row margin (and otherwise valid fields). -/
def optNegMargin : GridOpt := ⟨some 1, some (-5), some 1, some 0⟩

/-- C9 counterexample: the specification with row margin -5 is NOT rejected:
no message is shown and a grid is produced — the margin check `!m && m !== 0`
only detects absence, never a negative sign. -/
theorem negative_margin_not_rejected :
    (createGrid doc0 [gl0] optNegMargin).messages = []
    ∧ (createGrid doc0 [gl0] optNegMargin).result ≠ none := by
  have heq := createGrid_valid_eq doc0 gl0 [] optNegMargin 1 1 (-5) 0 9 rfl (by norm_num)
    rfl (by norm_num) rfl rfl (by decide)
  rw [heq]
  exact ⟨rfl, by simp⟩

/-- C9 amended: `createGrid` validates each margin only for presence, not
against the spec's `≥ 0` bound: any present numeric margin — negative ones
included — passes validation, no message is shown, and the grid of copies is
produced and returned. -/
theorem grid_margin_sign_unchecked (doc : GDoc) (first : GLayer) (rest : List GLayer)
    (opt : GridOpt) (r c rm cm : ℚ) (p : Nat)
    (hr : opt.rowsCount = some r) (hr0 : 0 < r)
    (hc : opt.columnsCount = some c) (hc0 : 0 < c)
    (hrm : opt.rowsMargin = some rm) (hcm : opt.columnsMargin = some cm)
    (hpar : capturedParent (anchorScan first (first :: rest)) = some p) :
    (createGrid doc (first :: rest) opt).messages = []
    ∧ (createGrid doc (first :: rest) opt).result =
        some (gridCopies (anchorScan first (first :: rest)) p
          (anchorScan first (first :: rest)).frame.x
          (anchorScan first (first :: rest)).frame.y rm cm
          (loopIterations r) (loopIterations c) doc.nextId) := by
  rw [createGrid_valid_eq doc first rest opt r c rm cm p hr hr0 hc hc0 hrm hcm hpar]
  exact ⟨rfl, rfl⟩

/-- Witness for the C9 amended theorem at the concrete negative margin -5. -/
theorem grid_margin_sign_unchecked_witness :
    (createGrid doc0 [gl0] optNegMargin).messages = []
    ∧ (createGrid doc0 [gl0] optNegMargin).result =
        some (gridCopies (anchorScan gl0 [gl0]) 9 (anchorScan gl0 [gl0]).frame.x
          (anchorScan gl0 [gl0]).frame.y (-5) 0 (loopIterations 1) (loopIterations 1)
          doc0.nextId) :=
  grid_margin_sign_unchecked doc0 gl0 [] optNegMargin 1 1 (-5) 0 9 rfl (by norm_num)
    rfl (by norm_num) rfl rfl (by decide)

/-- A grid spec whose rows count is the non-integer 1/2, with two columns. -/
def optHalfRows : GridOpt := ⟨some (mkRat 1 2), some 0, some 2, some 0⟩

/-- C10: the rows-count validation accepts exactly the truthy non-negative
numbers (`0 < q`), not only integers ≥ 1; a rows count strictly between 0 and
1 drives the row loop exactly once; a rows count of 0 is rejected with the
message claiming "at least 1"; and concretely rowsCount = 1/2 with 2 columns
passes validation and produces a single row of 2 copies. -/
theorem grid_fractional_rows_accepted :
    (∀ q : ℚ, countInvalid (some q) = false ↔ 0 < q)
    ∧ (∀ q : ℚ, 0 < q → q < 1 → loopIterations q = 1)
    ∧ (∀ (doc : GDoc) (sel : List GLayer) (m1 m3 : Option ℚ),
        createGrid doc sel ⟨some 0, m1, some 1, m3⟩ =
          ⟨doc, none, ["Number of grid rows must be at least 1."], false⟩)
    ∧ (createGrid doc0 [gl0] optHalfRows).messages = []
    ∧ (createGrid doc0 [gl0] optHalfRows).result =
        some [⟨1, ⟨0, 0, 20, 10⟩, some 9, none, some 9⟩,
          ⟨2, ⟨20, 0, 20, 10⟩, some 9, none, some 9⟩] := by
  have heq := createGrid_valid_eq doc0 gl0 [] optHalfRows (mkRat 1 2) 2 0 0 9 rfl
    (by decide) rfl (by norm_num) rfl rfl (by decide)
  have hanchor : anchorScan gl0 [gl0] = gl0 := by decide
  have hhalf : loopIterations (mkRat 1 2) = 1 :=
    loopIterations_fractional _ (by decide) (by decide)
  have htwo : loopIterations 2 = 2 := by simp [loopIterations]
  refine ⟨?_, fun q => loopIterations_fractional q, ?_, ?_, ?_⟩
  · intro q
    constructor
    · intro h
      by_contra hq
      rw [countInvalid_nonpos q (not_lt.1 hq)] at h
      exact Bool.noConfusion h
    · exact countInvalid_pos q
  · intro doc sel m1 m3
    simp [createGrid, countInvalid, jsFalsyQ]
  · rw [heq]
  · rw [heq, hanchor, hhalf, htwo]
    simp only [gridCopies, gridCopy, List.range_succ, Option.some.injEq]
    norm_num [gl0, doc0]

/-- Witness for the C10 theorem at the concrete fractional count 1/2. -/
theorem grid_fractional_rows_accepted_witness :
    countInvalid (some (mkRat 1 2)) = false ∧ loopIterations (mkRat 1 2) = 1 := by
  have h := grid_fractional_rows_accepted
  exact ⟨(h.1 (mkRat 1 2)).2 (by decide), h.2.1 (mkRat 1 2) (by decide) (by decide)⟩

/-- Selected layer A at (10, 50), 20×10, inside parent group 7. -/
def layA : GLayer := ⟨0, ⟨10, 50, 20, 10⟩, some 7, none, none⟩

/-- Selected layer B at (0, 0), 20×10, inside parent group 7. -/
def layB : GLayer := ⟨1, ⟨0, 0, 20, 10⟩, some 7, none, none⟩

/-- A document containing exactly layers A and B; fresh ids start at 2. -/
def docAB : GDoc := ⟨[layA, layB], 2⟩

/-- Grid spec rows=2, rowsMargin=5, columns=2, columnsMargin=5. -/
def optC6 : GridOpt := ⟨some 2, some 5, some 2, some 5⟩

/-- C6: a candidate replaces the current anchor exactly when its x is smaller
OR its y is smaller than the respective current-best values, both bests
updating to the new anchor's coordinates; for the selection
[A (x=10,y=50), B (x=0,y=0)] with rows=2, rowsMargin=5, columns=2,
columnsMargin=5 and anchor 20×10, the anchor is B and the four output layers
sit at (0,0), (25,0), (0,15), (25,15). -/
theorem anchor_scan_rule_and_example :
    (∀ (best t : GLayer) (sx sy : ℚ),
      anchorStep (best, sx, sy) t =
        if t.frame.x < sx ∨ t.frame.y < sy then (t, t.frame.x, t.frame.y)
        else (best, sx, sy))
    ∧ anchorScan layA [layA, layB] = layB
    ∧ (createGrid docAB [layA, layB] optC6).result =
        some [⟨2, ⟨0, 0, 20, 10⟩, some 7, none, none⟩,
          ⟨3, ⟨25, 0, 20, 10⟩, some 7, none, none⟩,
          ⟨4, ⟨0, 15, 20, 10⟩, some 7, none, none⟩,
          ⟨5, ⟨25, 15, 20, 10⟩, some 7, none, none⟩] := by
  have heq := createGrid_valid_eq docAB layA [layB] optC6 2 2 5 5 7 rfl (by norm_num)
    rfl (by norm_num) rfl rfl (by decide)
  have hanchor : anchorScan layA [layA, layB] = layB := by decide
  have htwo : loopIterations 2 = 2 := by simp [loopIterations]
  refine ⟨?_, hanchor, ?_⟩
  · intro best t sx sy
    by_cases hx : t.frame.x < sx
    · simp [anchorStep, hx]
    · by_cases hy : t.frame.y < sy <;> simp [anchorStep, hx, hy]
  · rw [heq, hanchor, htwo]
    simp only [gridCopies, gridCopy, List.range_succ, Option.some.injEq]
    norm_num [layB, docAB]

/-- C1: for a grid spec with natural counts R ≥ 1, C ≥ 1 and present margins,
and a non-empty selection whose anchor resolves a parent, `createGrid`
removes every originally selected layer from the document, produces exactly
R*C duplicates of the anchor — all inserted into the anchor's captured
parent — returned in row-major order with the copy at row i, column j at
x = anchorX + j*(width + columnsMargin), y = anchorY + i*(height +
rowsMargin); the count R*C does not depend on the selection's size. -/
theorem grid_creation_layout (doc : GDoc) (first : GLayer) (rest : List GLayer)
    (opt : GridOpt) (R C : Nat) (rm cm : ℚ) (p : Nat)
    (hR : opt.rowsCount = some (R : ℚ)) (hR1 : 1 ≤ R)
    (hC : opt.columnsCount = some (C : ℚ)) (hC1 : 1 ≤ C)
    (hrm : opt.rowsMargin = some rm) (hcm : opt.columnsMargin = some cm)
    (hpar : capturedParent (anchorScan first (first :: rest)) = some p)
    (hsel : ∀ l ∈ first :: rest, l.id < doc.nextId) :
    ∃ newLayers,
      (createGrid doc (first :: rest) opt).result = some newLayers
      ∧ newLayers.length = R * C
      ∧ (∀ l ∈ first :: rest,
          ∀ l2 ∈ (createGrid doc (first :: rest) opt).doc.layers, l.id ≠ l2.id)
      ∧ (∀ l2 ∈ newLayers, l2.parentGroup = some p)
      ∧ (∀ i j, i < R → j < C →
          newLayers.get? (i * C + j) = some
            { id := doc.nextId + i * C + j
              frame :=
                { x := (anchorScan first (first :: rest)).frame.x
                    + (j : ℚ) * ((anchorScan first (first :: rest)).frame.width + cm)
                  y := (anchorScan first (first :: rest)).frame.y
                    + (i : ℚ) * ((anchorScan first (first :: rest)).frame.height + rm)
                  width := (anchorScan first (first :: rest)).frame.width
                  height := (anchorScan first (first :: rest)).frame.height }
              parentGroup := some p
              parentArtboard := (anchorScan first (first :: rest)).parentArtboard
              parentPage := (anchorScan first (first :: rest)).parentPage }) := by
  have hR0 : 0 < R := Nat.lt_of_lt_of_le Nat.zero_lt_one hR1
  have hC0 : 0 < C := Nat.lt_of_lt_of_le Nat.zero_lt_one hC1
  have hr0 : (0 : ℚ) < (R : ℚ) := by exact_mod_cast hR0
  have hc0 : (0 : ℚ) < (C : ℚ) := by exact_mod_cast hC0
  have heq := createGrid_valid_eq doc first rest opt (R : ℚ) (C : ℚ) rm cm p
    hR hr0 hC hc0 hrm hcm hpar
  rw [loopIterations_natCast R, loopIterations_natCast C] at heq
  refine ⟨gridCopies (anchorScan first (first :: rest)) p
      (anchorScan first (first :: rest)).frame.x
      (anchorScan first (first :: rest)).frame.y rm cm R C doc.nextId,
    ?_, gridCopies_length _ _ _ _ _ _ _ _ _, ?_, ?_, ?_⟩
  · rw [heq]
  · intro l hl l2 hl2
    rw [heq] at hl2
    rcases List.mem_append.1 hl2 with h2 | h2
    · rcases List.mem_filter.1 h2 with ⟨-, hpred⟩
      intro hidEq
      rw [Bool.not_eq_true'] at hpred
      have hmem : l2.id ∈ (first :: rest).map (fun s => s.id) := by
        rw [← hidEq]
        exact List.mem_map_of_mem _ hl
      have hnotmem : l2.id ∉ (first :: rest).map (fun s => s.id) := by
        simpa using hpred
      exact hnotmem hmem
    · obtain ⟨i, j, hi, hj, rfl⟩ :=
        (gridCopies_mem _ _ _ _ _ _ _ _ _ _).1 h2
      intro hidEq
      have hlt : l.id < doc.nextId := hsel l hl
      simp only [gridCopy] at hidEq
      omega
  · intro l2 hl2
    obtain ⟨i, j, hi, hj, rfl⟩ := (gridCopies_mem _ _ _ _ _ _ _ _ _ _).1 hl2
    rfl
  · intro i j hi hj
    rw [gridCopies_get _ _ _ _ _ _ _ _ _ i j hi hj]
    rfl

/-- Witness for the C1 theorem: the concrete 2×2 grid over [A, B] yields
exactly 4 returned layers. -/
theorem grid_creation_layout_witness :
    ((createGrid docAB [layA, layB] optC6).result.getD []).length = 2 * 2 := by
  obtain ⟨newLayers, h1, h2, -, -, -⟩ := grid_creation_layout docAB layA [layB] optC6
    2 2 5 5 7 (by norm_num [optC6]) (by norm_num) (by norm_num [optC6]) (by norm_num)
    rfl rfl (by decide) (by decide)
  rw [h1, Option.getD_some, h2]
